import Mathlib

/-!
Shallow embedding of the StellarGuard contracts
(`src/contracts/stop_loss/src/lib.rs`, `src/contracts/liquidation/src/lib.rs`).

Modelling conventions:
* Soroban `i128` values are modelled as `Int`; Rust's `/` on `i128` truncates
  toward zero, which is `Int.tdiv`.  Division by zero panics in Rust; at the
  two sites whose denominator is not a nonzero literal we model the division
  by `rdivE`, whose `.error .divideByZero` value is the model of that panic.
* `u64` ledger timestamps are `Nat`; Rust's `current_time - timestamp` is
  modelled by truncated `Nat` subtraction (all theorems about staleness carry
  a hypothesis placing the timestamp in the past, where the two agree).
* Every `panic!` in a contract call is an `Except.error` carrying a
  constructor named after the panic site; a Soroban panic reverts the whole
  invocation, so an `.error` result carries no post-state at all.
* Persistent `Map`/`Vec` storage is an association list (`alGet` / `alSet`
  mirror `Map::get` / `Map::set`); the oracle (the external Reflector
  contract, consumed through `mod reflector`) is a table of responses carried
  in the state, so theorems quantify over every possible oracle behaviour.
* `owner.require_auth()` succeeds exactly when the call is made with the
  named identity's authorization; calls below are modelled as made by the
  address passed for the authorizing parameter, so `require_auth` itself
  never fails and the in-code `order.owner != owner` checks remain.
* TTL extension (`extend_ttl`) has no logical effect on stored values and is
  omitted.
-/

namespace StellarGuard

/-- Association-list lookup, mirroring `soroban_sdk::Map::get`. -/
def alGet {α β : Type} [DecidableEq α] (m : List (α × β)) (k : α) : Option β :=
  match m with
  | [] => none
  | (k', v) :: rest => if k = k' then some v else alGet rest k

/-- Association-list update, mirroring `soroban_sdk::Map::set`. -/
def alSet {α β : Type} [DecidableEq α] (m : List (α × β)) (k : α) (v : β) :
    List (α × β) :=
  match m with
  | [] => [(k, v)]
  | (k', v') :: rest => if k = k' then (k, v) :: rest else (k', v') :: alSet rest k v

theorem alGet_alSet_self {α β : Type} [DecidableEq α]
    (m : List (α × β)) (k : α) (v : β) : alGet (alSet m k v) k = some v := by
  induction m with
  | nil => simp [alGet, alSet]
  | cons hd tl ih =>
    obtain ⟨k', v'⟩ := hd
    by_cases h : k = k' <;> simp [alGet, alSet, h, ih]

theorem alGet_alSet_ne {α β : Type} [DecidableEq α]
    (m : List (α × β)) (k k' : α) (v : β) (h : k' ≠ k) :
    alGet (alSet m k v) k' = alGet m k' := by
  induction m with
  | nil => simp [alGet, alSet, h]
  | cons hd tl ih =>
    obtain ⟨k₀, v₀⟩ := hd
    by_cases hk : k = k₀
    · subst hk; simp [alGet, alSet, h]
    · by_cases hk' : k' = k₀ <;> simp [alGet, alSet, hk, hk', ih]

theorem alSet_alSet_self {α β : Type} [DecidableEq α]
    (m : List (α × β)) (k : α) (v w : β) :
    alSet (alSet m k v) k w = alSet m k w := by
  induction m with
  | nil => simp [alSet]
  | cons hd tl ih =>
    obtain ⟨k', v'⟩ := hd
    by_cases h : k = k' <;> simp [alSet, h, ih]

/-- Rust `i128` division (`/` truncates toward zero). Used only where the
source divides by a nonzero constant literal (100, 10000). -/
def rdiv (a b : Int) : Int := a.tdiv b

/-- Panic kinds: one constructor per `panic!` site of the two contracts,
plus `divideByZero` for the implicit trap of Rust's division and
`unknownId` for the implicit panic of `.unwrap()` on a missing record. -/
inductive Err where
  | amountTooSmall          -- "Amount too small"
  | invalidTrailingPercent  -- "Invalid trailing percent"
  | invalidPriceLevels      -- "Invalid price levels"
  | invalidTwapPeriods      -- "TWAP periods must be between 3 and 20"
  | unauthorized            -- "Unauthorized"
  | orderNotActive          -- "Order not active"
  | priceNotAvailable       -- "Price not available"
  | priceStale              -- "Price data is stale"
  | twapNotAvailable        -- "TWAP price not available"
  | crossNotAvailable       -- "Cross price not available"
  | maxOrdersExceeded       -- "Max orders per user exceeded"
  | unknownId               -- `.unwrap()` on a missing map entry
  | thresholdTooLow         -- "Liquidation threshold must be > 100%"
  | insufficientCollateral  -- "Initial collateral insufficient"
  | priceDataUnavailable    -- "Price data unavailable"
  | notEligible             -- "Position not eligible for liquidation"
  | loanNotActive           -- "Loan not active"
  | divideByZero            -- implicit Rust panic: division by zero
deriving DecidableEq, Repr

/-- Rust `i128` division at a site whose denominator may be zero: the zero
branch is the model of the division's own divide-by-zero panic (there is no
explicit guard in the source). -/
def rdivE (a b : Int) : Except Err Int :=
  if b = 0 then .error .divideByZero else .ok (a.tdiv b)

/-- Comparison against a positive bound does not distinguish the code's
truncating division from the spec's flooring division: the two divisions
agree unless the exact quotient is negative, and then both sides of the
comparison are true. -/
theorem tdiv_le_iff_fdiv_le (a b c : Int) (hb : b ≠ 0) (hc : 0 < c) :
    a.tdiv b ≤ c ↔ a.fdiv b ≤ c := by
  rcases a with m | m <;> rcases b with n | n
  · cases m with
    | zero =>
      have h1 : Int.tdiv (Int.ofNat 0) (Int.ofNat n) = Int.ofNat (0 / n) := rfl
      have h2 : Int.fdiv (Int.ofNat 0) (Int.ofNat n) = 0 := rfl
      rw [h1, h2, Nat.zero_div]
      have h3 : Int.ofNat 0 = 0 := rfl
      rw [h3]
    | succ k =>
      have h1 : Int.tdiv (Int.ofNat (k + 1)) (Int.ofNat n) =
          Int.ofNat ((k + 1) / n) := rfl
      have h2 : Int.fdiv (Int.ofNat (k + 1)) (Int.ofNat n) =
          Int.ofNat ((k + 1) / n) := rfl
      rw [h1, h2]
  · have h1 : Int.tdiv (Int.ofNat m) (Int.negSucc n) ≤ 0 :=
      Int.tdiv_nonpos (Int.ofNat_nonneg m) (Int.negSucc_lt_zero n).le
    have h2 : Int.fdiv (Int.ofNat m) (Int.negSucc n) ≤ 0 := by
      cases m with
      | zero => exact le_of_eq rfl
      | succ k =>
        have hk : Int.fdiv (Int.ofNat (k + 1)) (Int.negSucc n) =
            Int.negSucc (k / (n + 1)) := rfl
        rw [hk]
        exact (Int.negSucc_lt_zero _).le
    constructor <;> intro _ <;> omega
  · have hn : n ≠ 0 := fun h => hb (by rw [h]; rfl)
    obtain ⟨j, rfl⟩ := Nat.exists_eq_succ_of_ne_zero hn
    have h1 : Int.tdiv (Int.negSucc m) (Int.ofNat (j + 1)) =
        -Int.ofNat ((m + 1) / (j + 1)) := rfl
    have h2 : Int.fdiv (Int.negSucc m) (Int.ofNat (j + 1)) =
        Int.negSucc (m / (j + 1)) := rfl
    have hb1 : 0 ≤ Int.ofNat ((m + 1) / (j + 1)) := Int.ofNat_nonneg _
    have hb2 : Int.negSucc (m / (j + 1)) < 0 := Int.negSucc_lt_zero _
    rw [h1, h2]
    constructor <;> intro _ <;> omega
  · have h1 : Int.tdiv (Int.negSucc m) (Int.negSucc n) =
        Int.ofNat ((m + 1) / (n + 1)) := rfl
    have h2 : Int.fdiv (Int.negSucc m) (Int.negSucc n) =
        Int.ofNat ((m + 1) / (n + 1)) := rfl
    rw [h1, h2]

/-- A Reflector `PriceData` response: price and publication timestamp. -/
structure PriceData where
  price : Int
  timestamp : Nat
deriving DecidableEq, Repr

abbrev Sym := String
abbrev Addr := String

end StellarGuard

namespace StellarGuard.StopLoss

open StellarGuard

/-- Responses of the external Reflector oracle, as consumed by the stop-loss
contract: `lastprice`, `twap` and `x_last_price` tables (a missing entry is
the oracle answering `None`). -/
structure Oracle where
  spotQ : List (Sym × PriceData)
  twapQ : List ((Sym × Nat) × Int)
  crossQ : List ((Sym × Sym) × PriceData)
deriving DecidableEq, Repr

def Oracle.lastprice (o : Oracle) (a : Sym) : Option PriceData := alGet o.spotQ a

def Oracle.twap (o : Oracle) (a : Sym) (periods : Nat) : Option Int :=
  alGet o.twapQ (a, periods)

def Oracle.x_last_price (o : Oracle) (base quote : Sym) : Option PriceData :=
  alGet o.crossQ (base, quote)

inductive OrderStatus where
  | Active
  | Executed
  | Cancelled
deriving DecidableEq, Repr

/-- `StopLossOrder` record, field for field. -/
structure StopLossOrder where
  owner : Addr
  asset : Sym
  amount : Int
  stop_price : Int
  trailing_percent : Option Nat
  highest_price : Int
  take_profit_price : Option Int
  created_at : Nat
  status : OrderStatus
deriving DecidableEq, Repr

/-- Persistent state of the stop-loss contract plus its environment: the
oracle's response tables and the ledger timestamp. -/
structure St where
  oracle : Oracle
  now : Nat
  orders : List (Nat × StopLossOrder)
  order_counter : Nat
  user_orders : List (Addr × List Nat)
deriving DecidableEq, Repr

def MIN_ORDER_AMOUNT : Int := 1000000
def PROTOCOL_FEE_BPS : Int := 10
def MAX_ORDERS_PER_USER : Nat := 100

/-- `get_next_order_id`: increment and persist the counter, return it. -/
def get_next_order_id (s : St) : Nat × St :=
  (s.order_counter + 1, { s with order_counter := s.order_counter + 1 })

/-- `get_current_price`: spot lookup, panicking when the quote is missing or
older than 600 seconds. -/
def get_current_price (s : St) (asset : Sym) : Except Err Int :=
  match s.oracle.lastprice asset with
  | none => .error .priceNotAvailable
  | some pd =>
    if s.now - pd.timestamp > 600 then .error .priceStale
    else .ok pd.price

/-- `get_twap_price`: TWAP lookup; fails only when the oracle has no TWAP
(there is no staleness check on this path). -/
def get_twap_price (s : St) (asset : Sym) (periods : Nat) : Except Err Int :=
  match s.oracle.twap asset periods with
  | none => .error .twapNotAvailable
  | some p => .ok p

/-- `get_cross_price`: cross-price lookup between two assets. -/
def get_cross_price (s : St) (base quote : Sym) : Except Err Int :=
  match s.oracle.x_last_price base quote with
  | none => .error .crossNotAvailable
  | some pd => .ok pd.price

/-- `get_order`: `orders.get(order_id).unwrap()`. -/
def get_order (s : St) (order_id : Nat) : Except Err StopLossOrder :=
  match alGet s.orders order_id with
  | none => .error .unknownId
  | some o => .ok o

/-- `save_order`: write the record back under its id. -/
def save_order (s : St) (order_id : Nat) (o : StopLossOrder) : St :=
  { s with orders := alSet s.orders order_id o }

/-- `add_user_order`: append to the per-user id list, enforcing the cap. -/
def add_user_order (s : St) (user : Addr) (order_id : Nat) : Except Err St :=
  let cur := (alGet s.user_orders user).getD []
  if MAX_ORDERS_PER_USER ≤ cur.length then .error .maxOrdersExceeded
  else .ok { s with user_orders := alSet s.user_orders user (cur ++ [order_id]) }

/-- `create_stop_loss`. -/
def create_stop_loss (s : St) (owner : Addr) (asset : Sym)
    (amount stop_price : Int) : Except Err (Nat × St) :=
  if amount < MIN_ORDER_AMOUNT then .error .amountTooSmall
  else
    let (order_id, s) := get_next_order_id s
    match get_current_price s asset with
    | .error e => .error e
    | .ok current_price =>
      let order : StopLossOrder :=
        { owner := owner, asset := asset, amount := amount,
          stop_price := stop_price, trailing_percent := none,
          highest_price := current_price, take_profit_price := none,
          created_at := s.now, status := .Active }
      let s := save_order s order_id order
      match add_user_order s owner order_id with
      | .error e => .error e
      | .ok s => .ok (order_id, s)

/-- `create_trailing_stop`. -/
def create_trailing_stop (s : St) (owner : Addr) (asset : Sym)
    (amount : Int) (trailing_percent : Nat) : Except Err (Nat × St) :=
  if amount < MIN_ORDER_AMOUNT then .error .amountTooSmall
  else if trailing_percent = 0 ∨ trailing_percent > 50 then
    .error .invalidTrailingPercent
  else
    let (order_id, s) := get_next_order_id s
    match get_current_price s asset with
    | .error e => .error e
    | .ok current_price =>
      let stop_price := rdiv (current_price * (100 - (trailing_percent : Int))) 100
      let order : StopLossOrder :=
        { owner := owner, asset := asset, amount := amount,
          stop_price := stop_price, trailing_percent := some trailing_percent,
          highest_price := current_price, take_profit_price := none,
          created_at := s.now, status := .Active }
      let s := save_order s order_id order
      match add_user_order s owner order_id with
      | .error e => .error e
      | .ok s => .ok (order_id, s)

/-- `create_oco_order`. -/
def create_oco_order (s : St) (owner : Addr) (asset : Sym)
    (amount stop_price take_profit_price : Int) : Except Err (Nat × St) :=
  if amount < MIN_ORDER_AMOUNT then .error .amountTooSmall
  else
    let (order_id, s) := get_next_order_id s
    match get_current_price s asset with
    | .error e => .error e
    | .ok current_price =>
      if stop_price ≥ current_price ∨ take_profit_price ≤ current_price then
        .error .invalidPriceLevels
      else
        let order : StopLossOrder :=
          { owner := owner, asset := asset, amount := amount,
            stop_price := stop_price, trailing_percent := none,
            highest_price := current_price,
            take_profit_price := some take_profit_price,
            created_at := s.now, status := .Active }
        let s := save_order s order_id order
        match add_user_order s owner order_id with
        | .error e => .error e
        | .ok s => .ok (order_id, s)

/-- `create_twap_stop`. -/
def create_twap_stop (s : St) (owner : Addr) (asset : Sym)
    (amount : Int) (twap_periods : Nat) (stop_percentage : Nat) :
    Except Err (Nat × St) :=
  if amount < MIN_ORDER_AMOUNT then .error .amountTooSmall
  else if twap_periods < 3 ∨ twap_periods > 20 then .error .invalidTwapPeriods
  else
    let (order_id, s) := get_next_order_id s
    match get_twap_price s asset twap_periods with
    | .error e => .error e
    | .ok twap_price =>
      let stop_price := rdiv (twap_price * (100 - (stop_percentage : Int))) 100
      let order : StopLossOrder :=
        { owner := owner, asset := asset, amount := amount,
          stop_price := stop_price, trailing_percent := none,
          highest_price := twap_price, take_profit_price := none,
          created_at := s.now, status := .Active }
      let s := save_order s order_id order
      match add_user_order s owner order_id with
      | .error e => .error e
      | .ok s => .ok (order_id, s)

/-- `create_cross_asset_stop`: stores the position asset in `asset`, the
trigger price in `stop_price` (the source comment reads "This represents the
trigger asset price") and the cross price of trigger/position in
`highest_price`; the trigger asset itself is not stored. -/
def create_cross_asset_stop (s : St) (owner : Addr)
    (position_asset trigger_asset : Sym) (amount trigger_price : Int) :
    Except Err (Nat × St) :=
  if amount < MIN_ORDER_AMOUNT then .error .amountTooSmall
  else
    let (order_id, s) := get_next_order_id s
    match get_cross_price s trigger_asset position_asset with
    | .error e => .error e
    | .ok cross_price =>
      let order : StopLossOrder :=
        { owner := owner, asset := position_asset, amount := amount,
          stop_price := trigger_price, trailing_percent := none,
          highest_price := cross_price, take_profit_price := none,
          created_at := s.now, status := .Active }
      let s := save_order s order_id order
      match add_user_order s owner order_id with
      | .error e => .error e
      | .ok s => .ok (order_id, s)

/-- `execute_order`: re-reads the record, marks it Executed and saves it.
The Rust locals `fee_amount` / `net_amount` are computed and dropped by the
source; they are returned here so theorems can speak about the computation. -/
def execute_order (s : St) (order_id : Nat) (_execution_price : Int) :
    Except Err ((Int × Int) × St) :=
  match alGet s.orders order_id with
  | none => .error .unknownId
  | some order =>
    let order := { order with status := OrderStatus.Executed }
    let fee_amount := rdiv (order.amount * PROTOCOL_FEE_BPS) 10000
    let net_amount := order.amount - fee_amount
    .ok ((fee_amount, net_amount), save_order s order_id order)

/-- The trailing-stop ratchet block shared verbatim by `check_and_execute`
and `check_and_execute_twap` (lines 220-230 and 314-324 of the source):
returns the updated in-memory order and whether the source saved it. -/
def ratchet (order : StopLossOrder) (current_price : Int) :
    StopLossOrder × Bool :=
  match order.trailing_percent with
  | none => (order, false)
  | some tp =>
    if current_price > order.highest_price then
      let o1 := { order with highest_price := current_price }
      let new_stop := rdiv (current_price * (100 - (tp : Int))) 100
      if new_stop > o1.stop_price then
        ({ o1 with stop_price := new_stop }, true)
      else (o1, false)
    else (order, false)

/-- The trigger test of `check_and_execute` (`should_execute` after the two
condition checks). -/
def trigger_test (order : StopLossOrder) (p : Int) : Bool :=
  (decide (p ≤ order.stop_price)) ||
    (match order.take_profit_price with
     | some tp => decide (p ≥ tp)
     | none => false)

/-- The body shared verbatim by `check_and_execute` (lines 208-253) and
`check_and_execute_twap` (lines 302-345), which differ only in the price
lookup used; `price` is that lookup, already applied to the current state
(the price is fetched once, before the ratchet). -/
def check_core (s : St) (price : Sym → Except Err Int) (order_id : Nat) :
    Except Err (Bool × St) :=
  match alGet s.orders order_id with
  | none => .error .unknownId
  | some order =>
    if order.status ≠ OrderStatus.Active then .ok (false, s)
    else
      match price order.asset with
      | .error e => .error e
      | .ok current_price =>
        let os := ratchet order current_price
        let s1 := if os.2 then save_order s order_id os.1 else s
        if trigger_test os.1 current_price then
          match execute_order s1 order_id current_price with
          | .error e => .error e
          | .ok (_, s2) => .ok (true, s2)
        else .ok (false, s1)

/-- `check_and_execute`: the core against the spot price. -/
def check_and_execute (s : St) (order_id : Nat) : Except Err (Bool × St) :=
  check_core s (get_current_price s) order_id

/-- `check_and_execute_twap`: the core against the TWAP price. -/
def check_and_execute_twap (s : St) (order_id : Nat) (twap_periods : Nat) :
    Except Err (Bool × St) :=
  check_core s (fun a => get_twap_price s a twap_periods) order_id

/-- `cancel_order`. -/
def cancel_order (s : St) (owner : Addr) (order_id : Nat) :
    Except Err (Unit × St) :=
  match alGet s.orders order_id with
  | none => .error .unknownId
  | some order =>
    if order.owner ≠ owner then .error .unauthorized
    else if order.status ≠ OrderStatus.Active then .error .orderNotActive
    else .ok ((), save_order s order_id { order with status := .Cancelled })

/-- `get_user_orders`: `unwrap_or(Vec::new)` — a user with no recorded
orders gets the empty list, never a failure. -/
def get_user_orders (s : St) (user : Addr) : List Nat :=
  (alGet s.user_orders user).getD []

/-- `get_order_details`: delegates to `get_order`. -/
def get_order_details (s : St) (order_id : Nat) : Except Err StopLossOrder :=
  get_order s order_id

/-! Structural lemmas about the stop-loss operations. -/

theorem save_order_twice (s : St) (id : Nat) (a b : StopLossOrder) :
    save_order (save_order s id a) id b = save_order s id b := by
  simp [save_order, alSet_alSet_self]

theorem ratchet_stop_le (o : StopLossOrder) (p : Int) :
    o.stop_price ≤ (ratchet o p).1.stop_price := by
  unfold ratchet
  split
  · exact le_refl _
  · split
    · dsimp only
      split
      · dsimp only
        omega
      · exact le_refl _
    · exact le_refl _

theorem ratchet_highest_le (o : StopLossOrder) (p : Int) :
    o.highest_price ≤ (ratchet o p).1.highest_price := by
  unfold ratchet
  split
  · exact le_refl _
  · split
    · dsimp only
      split
      · dsimp only
        omega
      · dsimp only
        omega
    · exact le_refl _

theorem ratchet_fields (o : StopLossOrder) (p : Int) :
    (ratchet o p).1.owner = o.owner ∧ (ratchet o p).1.asset = o.asset ∧
    (ratchet o p).1.amount = o.amount ∧
    (ratchet o p).1.take_profit_price = o.take_profit_price ∧
    (ratchet o p).1.trailing_percent = o.trailing_percent ∧
    (ratchet o p).1.created_at = o.created_at ∧
    (ratchet o p).1.status = o.status := by
  unfold ratchet
  split
  · exact ⟨rfl, rfl, rfl, rfl, rfl, rfl, rfl⟩
  · split
    · dsimp only
      split
      · exact ⟨rfl, rfl, rfl, rfl, rfl, rfl, rfl⟩
      · exact ⟨rfl, rfl, rfl, rfl, rfl, rfl, rfl⟩
    · exact ⟨rfl, rfl, rfl, rfl, rfl, rfl, rfl⟩

theorem execute_order_eq (s : St) (id : Nat) (o : StopLossOrder) (p : Int)
    (ho : alGet s.orders id = some o) :
    execute_order s id p =
      .ok ((rdiv (o.amount * PROTOCOL_FEE_BPS) 10000,
            o.amount - rdiv (o.amount * PROTOCOL_FEE_BPS) 10000),
           save_order s id { o with status := OrderStatus.Executed }) := by
  unfold execute_order
  rw [ho]

theorem check_core_inactive (s : St) (price : Sym → Except Err Int) (id : Nat)
    (o : StopLossOrder) (ho : alGet s.orders id = some o)
    (ha : o.status ≠ OrderStatus.Active) :
    check_core s price id = .ok (false, s) := by
  unfold check_core
  rw [ho]
  simp [ha]

theorem check_core_active (s : St) (price : Sym → Except Err Int) (id : Nat)
    (o : StopLossOrder) (p : Int)
    (ho : alGet s.orders id = some o) (ha : o.status = OrderStatus.Active)
    (hp : price o.asset = .ok p) :
    check_core s price id =
      if trigger_test (ratchet o p).1 p then
        .ok (true, save_order s id
          { (if (ratchet o p).2 then (ratchet o p).1 else o) with
              status := OrderStatus.Executed })
      else
        .ok (false, if (ratchet o p).2 then save_order s id (ratchet o p).1 else s) := by
  unfold check_core
  rw [ho]
  simp only [ha, ne_eq, not_true_eq_false, if_false, ite_false, hp]
  have h1 : alGet (if (ratchet o p).2 then save_order s id (ratchet o p).1 else s).orders id
      = some (if (ratchet o p).2 then (ratchet o p).1 else o) := by
    by_cases hr : (ratchet o p).2 <;> simp [hr, save_order, alGet_alSet_self, ho]
  by_cases ht : trigger_test (ratchet o p).1 p
  · rw [execute_order_eq _ id _ p h1]
    by_cases hr : (ratchet o p).2 <;> simp [hr, ht, save_order_twice]
  · simp [ht]

theorem check_core_shape (s : St) (price : Sym → Except Err Int) (id : Nat)
    (b : Bool) (s' : St) (h : check_core s price id = .ok (b, s')) :
    ∃ o, alGet s.orders id = some o ∧
      ((o.status ≠ OrderStatus.Active ∧ b = false ∧ s' = s) ∨
       (o.status = OrderStatus.Active ∧ ∃ p, price o.asset = .ok p ∧
         ((trigger_test (ratchet o p).1 p = true ∧ b = true ∧
           s' = save_order s id
             { (if (ratchet o p).2 then (ratchet o p).1 else o) with
                 status := OrderStatus.Executed }) ∨
          (trigger_test (ratchet o p).1 p = false ∧ b = false ∧
           s' = (if (ratchet o p).2 then save_order s id (ratchet o p).1 else s))))) := by
  rcases ho : alGet s.orders id with _ | o
  · unfold check_core at h
    rw [ho] at h
    exact Except.noConfusion h
  · refine ⟨o, rfl, ?_⟩
    by_cases ha : o.status = OrderStatus.Active
    · rcases hp : price o.asset with e | p
      · unfold check_core at h
        rw [ho] at h
        simp only [ha, ne_eq, not_true_eq_false, if_false, ite_false, hp] at h
        exact Except.noConfusion h
      · rw [check_core_active s price id o p ho ha hp] at h
        refine Or.inr ⟨ha, p, rfl, ?_⟩
        by_cases ht : trigger_test (ratchet o p).1 p
        · rw [if_pos ht] at h
          injection h with h2
          injection h2 with hb hs
          exact Or.inl ⟨ht, hb.symm, hs.symm⟩
        · rw [if_neg ht] at h
          injection h with h2
          injection h2 with hb hs
          simp only [Bool.not_eq_true] at ht
          exact Or.inr ⟨ht, hb.symm, hs.symm⟩
    · rw [check_core_inactive s price id o ho ha] at h
      injection h with h2
      injection h2 with hb hs
      exact Or.inl ⟨ha, hb.symm, hs.symm⟩

theorem check_core_executed_of_true (s : St) (price : Sym → Except Err Int)
    (id : Nat) (s' : St) (h : check_core s price id = .ok (true, s')) :
    ∃ o', alGet s'.orders id = some o' ∧ o'.status = OrderStatus.Executed := by
  obtain ⟨o, ho, hcase⟩ := check_core_shape s price id true s' h
  rcases hcase with ⟨_, hb, _⟩ | ⟨ha, p, hp, ⟨ht, _, hs⟩ | ⟨ht, hb, hs⟩⟩
  · exact absurd hb (by simp)
  · subst hs
    refine ⟨{ (if (ratchet o p).2 then (ratchet o p).1 else o) with
        status := OrderStatus.Executed }, ?_, rfl⟩
    simp [save_order, alGet_alSet_self]
  · exact absurd hb (by simp)

/-- Every successful `check_core` call: fields outside the orders map are
untouched, other ids are untouched, and the record at `id` (when present)
keeps every field except a possible stop/highest ratchet raise and an
Active → Executed transition; a non-Active record is returned unchanged. -/
theorem check_core_frame (s : St) (price : Sym → Except Err Int) (id : Nat)
    (b : Bool) (s' : St) (h : check_core s price id = .ok (b, s')) :
    s'.oracle = s.oracle ∧ s'.now = s.now ∧
    s'.order_counter = s.order_counter ∧ s'.user_orders = s.user_orders ∧
    (∀ i, i ≠ id → alGet s'.orders i = alGet s.orders i) ∧
    (∀ o, alGet s.orders id = some o →
      ∃ o', alGet s'.orders id = some o' ∧
        o.stop_price ≤ o'.stop_price ∧ o.highest_price ≤ o'.highest_price ∧
        o'.owner = o.owner ∧ o'.asset = o.asset ∧ o'.amount = o.amount ∧
        o'.take_profit_price = o.take_profit_price ∧
        o'.trailing_percent = o.trailing_percent ∧
        o'.created_at = o.created_at ∧
        (o'.status = o.status ∨
          (o.status = OrderStatus.Active ∧ o'.status = OrderStatus.Executed)) ∧
        (o.status ≠ OrderStatus.Active → o' = o)) := by
  obtain ⟨o, ho, hcase⟩ := check_core_shape s price id b s' h
  rcases hcase with ⟨ha, _, hs⟩ | ⟨ha, p, _, ⟨_, _, hs⟩ | ⟨_, _, hs⟩⟩
  · subst hs
    refine ⟨rfl, rfl, rfl, rfl, fun i _ => rfl, fun o₀ ho₀ => ?_⟩
    exact ⟨o₀, ho₀, le_refl _, le_refl _, rfl, rfl, rfl, rfl, rfl, rfl,
      Or.inl rfl, fun _ => rfl⟩
  · subst hs
    obtain ⟨f1, f2, f3, f4, f5, f6, f7⟩ := ratchet_fields o p
    refine ⟨rfl, rfl, rfl, rfl,
      fun i hi => by simp [save_order, alGet_alSet_ne _ _ _ _ hi], ?_⟩
    intro o₀ ho₀
    rw [ho] at ho₀
    have he : o₀ = o := (Option.some.inj ho₀).symm
    subst he
    by_cases hr : (ratchet o₀ p).2
    · refine ⟨{ (ratchet o₀ p).1 with status := OrderStatus.Executed }, ?_, ?_⟩
      · simp [save_order, alGet_alSet_self, hr]
      · exact ⟨ratchet_stop_le o₀ p, ratchet_highest_le o₀ p, f1, f2, f3, f4,
          f5, f6, Or.inr ⟨ha, rfl⟩, fun hna => absurd ha hna⟩
    · refine ⟨{ o₀ with status := OrderStatus.Executed }, ?_, ?_⟩
      · simp [save_order, alGet_alSet_self, hr]
      · exact ⟨le_refl _, le_refl _, rfl, rfl, rfl, rfl, rfl, rfl,
          Or.inr ⟨ha, rfl⟩, fun hna => absurd ha hna⟩
  · subst hs
    by_cases hr : (ratchet o p).2
    · obtain ⟨f1, f2, f3, f4, f5, f6, f7⟩ := ratchet_fields o p
      simp only [hr, if_true]
      refine ⟨rfl, rfl, rfl, rfl,
        fun i hi => by simp [save_order, alGet_alSet_ne _ _ _ _ hi], ?_⟩
      intro o₀ ho₀
      rw [ho] at ho₀
      have he : o₀ = o := (Option.some.inj ho₀).symm
      subst he
      refine ⟨(ratchet o₀ p).1, by simp [save_order, alGet_alSet_self],
        ratchet_stop_le o₀ p, ratchet_highest_le o₀ p, f1, f2, f3, f4, f5, f6,
        Or.inl f7, fun hna => absurd ha hna⟩
    · simp only [hr, if_false, ite_false]
      refine ⟨rfl, rfl, rfl, rfl, fun i _ => rfl, fun o₀ ho₀ => ?_⟩
      exact ⟨o₀, ho₀, le_refl _, le_refl _, rfl, rfl, rfl, rfl, rfl, rfl,
        Or.inl rfl, fun _ => rfl⟩

/-- Stop prices never decrease across a successful `check_core` call. -/
theorem check_core_stop_mono (s : St) (price : Sym → Except Err Int)
    (id : Nat) (b : Bool) (s' : St) (h : check_core s price id = .ok (b, s')) :
    ∀ i o o', alGet s.orders i = some o → alGet s'.orders i = some o' →
      o.stop_price ≤ o'.stop_price := by
  intro i o o' ho ho'
  obtain ⟨_, _, _, _, hoth, hrec⟩ := check_core_frame s price id b s' h
  by_cases hi : i = id
  · subst hi
    obtain ⟨o2, ho2, hle, _⟩ := hrec o ho
    rw [ho2] at ho'
    rw [(Option.some.inj ho').symm]
    exact hle
  · rw [hoth i hi, ho] at ho'
    rw [(Option.some.inj ho').symm]

/-- The ratchet fires (and saves) exactly when the price exceeds the
watermark and the candidate exceeds the stored stop; in that case the
in-memory order carries the candidate stop and the new watermark. -/
theorem ratchet_exact (o : StopLossOrder) (p : Int) (tp : Nat)
    (htp : o.trailing_percent = some tp) :
    ((ratchet o p).2 = true ↔
      (p > o.highest_price ∧ rdiv (p * (100 - (tp : Int))) 100 > o.stop_price)) ∧
    ((ratchet o p).2 = true →
      (ratchet o p).1.stop_price = rdiv (p * (100 - (tp : Int))) 100 ∧
      (ratchet o p).1.highest_price = p) := by
  unfold ratchet
  rw [htp]
  dsimp only
  by_cases h1 : p > o.highest_price
  · rw [if_pos h1]
    by_cases h2 : rdiv (p * (100 - (tp : Int))) 100 > o.stop_price
    · rw [if_pos h2]
      exact ⟨by simp [h1, h2], fun _ => ⟨rfl, rfl⟩⟩
    · rw [if_neg h2]
      exact ⟨by simp [h2], fun hf => absurd hf (by simp)⟩
  · rw [if_neg h1]
    exact ⟨by simp [h1], fun hf => absurd hf (by simp)⟩

/-- For an Active trailing order, a successful `check_core` call stores the
raised stop (and watermark) exactly under the ratchet condition; otherwise
the stored stop and watermark are unchanged. -/
theorem check_core_trailing_exact (s : St) (price : Sym → Except Err Int)
    (id : Nat) (o : StopLossOrder) (tp : Nat) (p : Int) (b : Bool) (s' : St)
    (ho : alGet s.orders id = some o) (ha : o.status = OrderStatus.Active)
    (htp : o.trailing_percent = some tp) (hp : price o.asset = .ok p)
    (h : check_core s price id = .ok (b, s')) :
    ∃ o', alGet s'.orders id = some o' ∧
      (if p > o.highest_price ∧ rdiv (p * (100 - (tp : Int))) 100 > o.stop_price
       then o'.stop_price = rdiv (p * (100 - (tp : Int))) 100 ∧
            o'.highest_price = p
       else o'.stop_price = o.stop_price ∧
            o'.highest_price = o.highest_price) := by
  obtain ⟨hiff, hval⟩ := ratchet_exact o p tp htp
  obtain ⟨o0, ho0, hcase⟩ := check_core_shape s price id b s' h
  rw [ho] at ho0
  have he : o = o0 := Option.some.inj ho0
  subst he
  rcases hcase with ⟨hna, _, _⟩ | ⟨_, p0, hp0, hrest⟩
  · exact absurd ha hna
  · rw [hp] at hp0
    have hpe : p = p0 := Except.ok.inj hp0
    subst hpe
    by_cases hcond : p > o.highest_price ∧
        rdiv (p * (100 - (tp : Int))) 100 > o.stop_price
    · have hr : (ratchet o p).2 = true := hiff.mpr hcond
      obtain ⟨hstop, hhigh⟩ := hval hr
      rcases hrest with ⟨_, _, hs⟩ | ⟨_, _, hs⟩ <;> subst hs
      · refine ⟨{ (ratchet o p).1 with status := OrderStatus.Executed },
          ?_, ?_⟩
        · simp [save_order, alGet_alSet_self, hr]
        · rw [if_pos hcond]
          exact ⟨hstop, hhigh⟩
      · refine ⟨(ratchet o p).1, ?_, ?_⟩
        · simp [save_order, alGet_alSet_self, hr]
        · rw [if_pos hcond]
          exact ⟨hstop, hhigh⟩
    · have hr : (ratchet o p).2 = false := by
        rcases hr2 : (ratchet o p).2 with _ | _
        · rfl
        · exact absurd (hiff.mp hr2) hcond
      rcases hrest with ⟨_, _, hs⟩ | ⟨_, _, hs⟩ <;> subst hs
      · refine ⟨{ o with status := OrderStatus.Executed }, ?_, ?_⟩
        · simp [save_order, alGet_alSet_self, hr]
        · rw [if_neg hcond]
          exact ⟨rfl, rfl⟩
      · refine ⟨o, ?_, ?_⟩
        · simp [hr]
          exact ho
        · rw [if_neg hcond]
          exact ⟨rfl, rfl⟩

/-- `cancel_order` succeeds only on an Active order owned by the caller, and
then only flips that order's status to Cancelled. -/
theorem cancel_order_shape (s : St) (owner : Addr) (id : Nat) (r : Unit)
    (s' : St) (h : cancel_order s owner id = .ok (r, s')) :
    ∃ o, alGet s.orders id = some o ∧ o.owner = owner ∧
      o.status = OrderStatus.Active ∧
      s' = save_order s id { o with status := OrderStatus.Cancelled } := by
  unfold cancel_order at h
  rcases ho : alGet s.orders id with _ | o <;> rw [ho] at h
  · exact Except.noConfusion h
  · dsimp only at h
    by_cases hw : o.owner = owner
    · by_cases ha : o.status = OrderStatus.Active
      · rw [if_neg (not_not_intro hw), if_neg (not_not_intro ha)] at h
        injection h with h2
        injection h2 with _ hs
        exact ⟨o, rfl, hw, ha, hs.symm⟩
      · rw [if_neg (not_not_intro hw), if_pos ha] at h
        exact Except.noConfusion h
    · rw [if_pos hw] at h
      exact Except.noConfusion h

end StellarGuard.StopLoss

namespace StellarGuard.Liquidation

open StellarGuard

/-- `AssetType` of the liquidation contract. -/
inductive AssetType where
  | Stellar (addr : Addr)
  | Crypto (sym : Sym)
deriving DecidableEq, Repr

inductive LoanStatus where
  | Active
  | Liquidated
  | Closed
deriving DecidableEq, Repr

/-- `Loan` record, field for field. -/
structure Loan where
  owner : Addr
  collateral_asset : AssetType
  collateral_amount : Int
  borrowed_asset : AssetType
  borrowed_amount : Int
  liquidation_threshold : Int
  created_at : Nat
  status : LoanStatus
deriving DecidableEq, Repr

/-- Reflector responses as consumed by the liquidation contract.  The
contract maps `AssetType::Crypto(sym)` to `Asset::Other(sym)` and
`AssetType::Stellar(addr)` to `Asset::Stellar(addr)` — a bijection, so the
tables are keyed by `AssetType` directly. -/
structure LiqOracle where
  spotQ : List (AssetType × PriceData)
  twapQ : List ((AssetType × Nat) × Int)
deriving DecidableEq, Repr

def LiqOracle.lastprice (o : LiqOracle) (a : AssetType) : Option PriceData :=
  alGet o.spotQ a

def LiqOracle.twap (o : LiqOracle) (a : AssetType) (periods : Nat) : Option Int :=
  alGet o.twapQ (a, periods)

/-- Persistent state of the liquidation contract plus its environment. -/
structure St where
  oracle : LiqOracle
  now : Nat
  loans : List (Nat × Loan)
  loan_counter : Nat
  user_loans : List (Addr × List Nat)
  rewards : List (Addr × Int)
deriving DecidableEq, Repr

/-- `get_next_loan_id`. -/
def get_next_loan_id (s : St) : Nat × St :=
  (s.loan_counter + 1, { s with loan_counter := s.loan_counter + 1 })

/-- `get_loan`: `loans.get(loan_id).unwrap()`. -/
def get_loan (s : St) (loan_id : Nat) : Except Err Loan :=
  match alGet s.loans loan_id with
  | none => .error .unknownId
  | some l => .ok l

/-- `save_loan`. -/
def save_loan (s : St) (loan_id : Nat) (l : Loan) : St :=
  { s with loans := alSet s.loans loan_id l }

/-- `add_user_loan` (no cap on loans). -/
def add_user_loan (s : St) (user : Addr) (loan_id : Nat) : St :=
  let cur := (alGet s.user_loans user).getD []
  { s with user_loans := alSet s.user_loans user (cur ++ [loan_id]) }

/-- `add_liquidation_reward`: accumulate into the per-liquidator ledger. -/
def add_liquidation_reward (s : St) (liquidator : Addr) (amount : Int) : St :=
  let cur := (alGet s.rewards liquidator).getD 0
  { s with rewards := alSet s.rewards liquidator (cur + amount) }

/-- `calculate_collateral_ratio`: panics when a price is missing; the final
division is unguarded, so a zero borrowed value is the division's own trap. -/
def calculate_collateral_ratio (s : St) (collateral_asset : AssetType)
    (collateral_amount : Int) (borrowed_asset : AssetType)
    (borrowed_amount : Int) : Except Err Int :=
  match s.oracle.lastprice collateral_asset, s.oracle.lastprice borrowed_asset with
  | some cp, some bp =>
    let collateral_value := cp.price * collateral_amount
    let borrowed_value := bp.price * borrowed_amount
    rdivE (collateral_value * 10000) borrowed_value
  | _, _ => .error .priceDataUnavailable

/-- `create_loan`. -/
def create_loan (s : St) (owner : Addr) (collateral_asset : AssetType)
    (collateral_amount : Int) (borrowed_asset : AssetType)
    (borrowed_amount : Int) (liquidation_threshold : Int) :
    Except Err (Nat × St) :=
  if liquidation_threshold ≤ 10000 then .error .thresholdTooLow
  else
    match calculate_collateral_ratio s collateral_asset collateral_amount
        borrowed_asset borrowed_amount with
    | .error e => .error e
    | .ok collateral_ratio =>
      if collateral_ratio < liquidation_threshold then
        .error .insufficientCollateral
      else
        let (loan_id, s) := get_next_loan_id s
        let loan : Loan :=
          { owner := owner, collateral_asset := collateral_asset,
            collateral_amount := collateral_amount,
            borrowed_asset := borrowed_asset,
            borrowed_amount := borrowed_amount,
            liquidation_threshold := liquidation_threshold,
            created_at := s.now, status := .Active }
        let s := save_loan s loan_id loan
        let s := add_user_loan s owner loan_id
        .ok (loan_id, s)

/-- `check_liquidation`: false when the loan is not Active or a price is
missing; otherwise compares the truncated bps ratio to the threshold.  No
staleness check happens on this path, and the division is unguarded. -/
def check_liquidation (s : St) (loan_id : Nat) : Except Err Bool :=
  match alGet s.loans loan_id with
  | none => .error .unknownId
  | some loan =>
    if loan.status ≠ LoanStatus.Active then .ok false
    else
      match s.oracle.lastprice loan.collateral_asset,
            s.oracle.lastprice loan.borrowed_asset with
      | some cp, some bp =>
        let collateral_value := cp.price * loan.collateral_amount
        let borrowed_value := bp.price * loan.borrowed_amount
        match rdivE (collateral_value * 10000) borrowed_value with
        | .error e => .error e
        | .ok ratio => .ok (decide (ratio ≤ loan.liquidation_threshold))
      | _, _ => .ok false

/-- `liquidate_position`. -/
def liquidate_position (s : St) (liquidator : Addr) (loan_id : Nat) :
    Except Err (Int × St) :=
  match check_liquidation s loan_id with
  | .error e => .error e
  | .ok eligible =>
    if ¬ eligible then .error .notEligible
    else
      match alGet s.loans loan_id with
      | none => .error .unknownId
      | some loan =>
        let reward := rdiv (loan.collateral_amount * 500) 10000
        let loan := { loan with status := LoanStatus.Liquidated }
        let s := save_loan s loan_id loan
        let s := add_liquidation_reward s liquidator reward
        .ok (reward, s)

/-- `get_health_factor_twap`: informational; returns 0 when inactive or a
TWAP is missing; its outer division is unguarded. -/
def get_health_factor_twap (s : St) (loan_id : Nat) (periods : Nat) :
    Except Err Int :=
  match alGet s.loans loan_id with
  | none => .error .unknownId
  | some loan =>
    if loan.status ≠ LoanStatus.Active then .ok 0
    else
      match s.oracle.twap loan.collateral_asset periods,
            s.oracle.twap loan.borrowed_asset periods with
      | some ct, some bt =>
        let collateral_value := ct * loan.collateral_amount
        let borrowed_value := bt * loan.borrowed_amount
        rdivE (collateral_value * 10000)
          (rdiv (borrowed_value * loan.liquidation_threshold) 10000)
      | _, _ => .ok 0

/-- `add_collateral`: owner-only, Active-only; adds `additional_amount`
(with no sign or zero validation) to the collateral. -/
def add_collateral (s : St) (owner : Addr) (loan_id : Nat)
    (additional_amount : Int) : Except Err (Unit × St) :=
  match alGet s.loans loan_id with
  | none => .error .unknownId
  | some loan =>
    if loan.owner ≠ owner then .error .unauthorized
    else if loan.status ≠ LoanStatus.Active then .error .loanNotActive
    else
      let loan :=
        { loan with collateral_amount := loan.collateral_amount + additional_amount }
      .ok ((), save_loan s loan_id loan)

/-- `repay_loan`: owner-only, Active-only; closes the loan when the
borrowed amount reaches zero or below. -/
def repay_loan (s : St) (owner : Addr) (loan_id : Nat) (repay_amount : Int) :
    Except Err (Unit × St) :=
  match alGet s.loans loan_id with
  | none => .error .unknownId
  | some loan =>
    if loan.owner ≠ owner then .error .unauthorized
    else if loan.status ≠ LoanStatus.Active then .error .loanNotActive
    else
      let loan := { loan with borrowed_amount := loan.borrowed_amount - repay_amount }
      let loan :=
        if loan.borrowed_amount ≤ 0 then { loan with status := LoanStatus.Closed }
        else loan
      .ok ((), save_loan s loan_id loan)

/-! Structural lemmas about the liquidation operations. -/

theorem check_liquidation_inactive (s : St) (id : Nat) (loan : Loan)
    (hl : alGet s.loans id = some loan) (ha : loan.status ≠ LoanStatus.Active) :
    check_liquidation s id = .ok false := by
  unfold check_liquidation
  rw [hl]
  simp [ha]

theorem check_liquidation_active_eq (s : St) (id : Nat) (loan : Loan)
    (cp bp : PriceData)
    (hl : alGet s.loans id = some loan) (ha : loan.status = LoanStatus.Active)
    (hc : s.oracle.lastprice loan.collateral_asset = some cp)
    (hb : s.oracle.lastprice loan.borrowed_asset = some bp) :
    check_liquidation s id =
      match rdivE (cp.price * loan.collateral_amount * 10000)
          (bp.price * loan.borrowed_amount) with
      | .error e => .error e
      | .ok ratio => .ok (decide (ratio ≤ loan.liquidation_threshold)) := by
  unfold check_liquidation
  rw [hl]
  dsimp only
  rw [if_neg (not_not_intro ha), hc, hb]

theorem check_liquidation_no_price (s : St) (id : Nat) (loan : Loan)
    (hl : alGet s.loans id = some loan) (ha : loan.status = LoanStatus.Active)
    (hmiss : s.oracle.lastprice loan.collateral_asset = none ∨
             s.oracle.lastprice loan.borrowed_asset = none) :
    check_liquidation s id = .ok false := by
  unfold check_liquidation
  rw [hl]
  dsimp only
  rw [if_neg (not_not_intro ha)]
  rcases hmiss with hm | hm <;>
    rcases hc2 : s.oracle.lastprice loan.collateral_asset with _ | cv <;>
    rcases hb2 : s.oracle.lastprice loan.borrowed_asset with _ | bv <;>
      simp_all

theorem liquidate_position_shape (s : St) (a : Addr) (id : Nat) (r : Int)
    (s' : St) (h : liquidate_position s a id = .ok (r, s')) :
    ∃ loan, alGet s.loans id = some loan ∧ loan.status = LoanStatus.Active ∧
      r = rdiv (loan.collateral_amount * 500) 10000 ∧
      s' = add_liquidation_reward
        (save_loan s id { loan with status := LoanStatus.Liquidated }) a r := by
  unfold liquidate_position at h
  rcases hc : check_liquidation s id with e | elig <;> rw [hc] at h
  · exact Except.noConfusion h
  · dsimp only at h
    rcases elig with _ | _
    · rw [if_pos (by simp)] at h
      exact Except.noConfusion h
    · rw [if_neg (by simp)] at h
      rcases hl : alGet s.loans id with _ | loan <;> rw [hl] at h
      · exact Except.noConfusion h
      · dsimp only at h
        injection h with h2
        injection h2 with hr hs
        have ha : loan.status = LoanStatus.Active := by
          by_contra hna
          rw [check_liquidation_inactive s id loan hl hna] at hc
          exact absurd (Except.ok.inj hc) (by simp)
        subst hr
        exact ⟨loan, rfl, ha, rfl, hs.symm⟩

theorem liquidate_position_not_active (s : St) (a : Addr) (id : Nat)
    (loan : Loan) (hl : alGet s.loans id = some loan)
    (ha : loan.status ≠ LoanStatus.Active) :
    liquidate_position s a id = .error .notEligible := by
  unfold liquidate_position
  rw [check_liquidation_inactive s id loan hl ha]
  simp

theorem add_collateral_eq (s : St) (owner : Addr) (id : Nat) (amt : Int)
    (loan : Loan) (hl : alGet s.loans id = some loan)
    (hw : loan.owner = owner) (ha : loan.status = LoanStatus.Active) :
    add_collateral s owner id amt =
      .ok ((), save_loan s id
        { loan with collateral_amount := loan.collateral_amount + amt }) := by
  unfold add_collateral
  rw [hl]
  dsimp only
  rw [if_neg (not_not_intro hw), if_neg (not_not_intro ha)]

theorem add_collateral_shape (s : St) (owner : Addr) (id : Nat) (amt : Int)
    (r : Unit) (s' : St) (h : add_collateral s owner id amt = .ok (r, s')) :
    ∃ loan, alGet s.loans id = some loan ∧ loan.owner = owner ∧
      loan.status = LoanStatus.Active ∧
      s' = save_loan s id
        { loan with collateral_amount := loan.collateral_amount + amt } := by
  unfold add_collateral at h
  rcases hl : alGet s.loans id with _ | loan <;> rw [hl] at h
  · exact Except.noConfusion h
  · dsimp only at h
    by_cases hw : loan.owner = owner
    · by_cases ha : loan.status = LoanStatus.Active
      · rw [if_neg (not_not_intro hw), if_neg (not_not_intro ha)] at h
        injection h with h2
        injection h2 with _ hs
        exact ⟨loan, rfl, hw, ha, hs.symm⟩
      · rw [if_neg (not_not_intro hw), if_pos ha] at h
        exact Except.noConfusion h
    · rw [if_pos hw] at h
      exact Except.noConfusion h

theorem repay_loan_shape (s : St) (owner : Addr) (id : Nat) (amt : Int)
    (r : Unit) (s' : St) (h : repay_loan s owner id amt = .ok (r, s')) :
    ∃ loan, alGet s.loans id = some loan ∧ loan.owner = owner ∧
      loan.status = LoanStatus.Active ∧
      s' = save_loan s id
        (if loan.borrowed_amount - amt ≤ 0 then
          { loan with borrowed_amount := loan.borrowed_amount - amt,
                      status := LoanStatus.Closed }
         else { loan with borrowed_amount := loan.borrowed_amount - amt }) := by
  unfold repay_loan at h
  rcases hl : alGet s.loans id with _ | loan <;> rw [hl] at h
  · exact Except.noConfusion h
  · dsimp only at h
    by_cases hw : loan.owner = owner
    · by_cases ha : loan.status = LoanStatus.Active
      · rw [if_neg (not_not_intro hw), if_neg (not_not_intro ha)] at h
        injection h with h2
        injection h2 with _ hs
        refine ⟨loan, rfl, hw, ha, ?_⟩
        rw [hs.symm]
      · rw [if_neg (not_not_intro hw), if_pos ha] at h
        exact Except.noConfusion h
    · rw [if_pos hw] at h
      exact Except.noConfusion h

end StellarGuard.Liquidation

namespace StellarGuard

/-! ## Claim theorems -/

/-- Basis-point collateralization ratio as the spec words it:
the floor of collateral_value * 10000 / borrowed_value. -/
def spec_ratio_bps (collateral_value borrowed_value : Int) : Int :=
  Int.fdiv (collateral_value * 10000) borrowed_value

/-- C3: `check_liquidation` returns false when the loan is not Active or
either leg's price is unavailable; otherwise, with value = price * amount
per leg, it returns true iff floor(collateral_value * 10000 /
borrowed_value) ≤ liquidation_threshold.  The positivity of the stored
threshold (every stored loan has threshold > 10000 by `create_loan`) and a
nonzero borrowed value (a zero one makes the division itself trap, claim
C6) appear as hypotheses. -/
theorem claim3_check_liquidation :
    (∀ (s : Liquidation.St) (id : Nat) (loan : Liquidation.Loan),
      alGet s.loans id = some loan →
      loan.status ≠ Liquidation.LoanStatus.Active →
      Liquidation.check_liquidation s id = .ok false) ∧
    (∀ (s : Liquidation.St) (id : Nat) (loan : Liquidation.Loan),
      alGet s.loans id = some loan →
      loan.status = Liquidation.LoanStatus.Active →
      (s.oracle.lastprice loan.collateral_asset = none ∨
       s.oracle.lastprice loan.borrowed_asset = none) →
      Liquidation.check_liquidation s id = .ok false) ∧
    (∀ (s : Liquidation.St) (id : Nat) (loan : Liquidation.Loan)
       (cp bp : PriceData),
      alGet s.loans id = some loan →
      loan.status = Liquidation.LoanStatus.Active →
      s.oracle.lastprice loan.collateral_asset = some cp →
      s.oracle.lastprice loan.borrowed_asset = some bp →
      0 < loan.liquidation_threshold →
      bp.price * loan.borrowed_amount ≠ 0 →
      Liquidation.check_liquidation s id =
        .ok (decide (spec_ratio_bps (cp.price * loan.collateral_amount)
          (bp.price * loan.borrowed_amount) ≤ loan.liquidation_threshold))) := by
  refine ⟨Liquidation.check_liquidation_inactive,
    Liquidation.check_liquidation_no_price, ?_⟩
  intro s id loan cp bp hl ha hc hb hth hz
  rw [Liquidation.check_liquidation_active_eq s id loan cp bp hl ha hc hb]
  unfold rdivE
  rw [if_neg hz]
  dsimp only
  congr 1
  rw [decide_eq_decide]
  exact tdiv_le_iff_fdiv_le _ _ _ hz hth

def c3loan : Liquidation.Loan :=
  { owner := "alice", collateral_asset := .Crypto "COL",
    collateral_amount := 1000, borrowed_asset := .Crypto "BOR",
    borrowed_amount := 500, liquidation_threshold := 15000,
    created_at := 0, status := .Active }

def c3s : Liquidation.St :=
  { oracle := { spotQ := [(.Crypto "COL", ⟨7, 0⟩), (.Crypto "BOR", ⟨10, 0⟩)],
                twapQ := [] },
    now := 0, loans := [(1, c3loan)], loan_counter := 1,
    user_loans := [("alice", [1])], rewards := [] }

/-- Witness for C3 at the spec's Scenario A numbers: collateral 1000 at
price 7 against borrowed 500 at price 10 with threshold 15000 gives ratio
14000 and the call answers true. -/
theorem claim3_witness : Liquidation.check_liquidation c3s 1 = .ok true := by
  have h := claim3_check_liquidation.2.2 c3s 1 c3loan ⟨7, 0⟩ ⟨10, 0⟩ rfl rfl
    rfl rfl (by decide) (by decide)
  rw [h]
  rfl

/-- C9 (amended): `get_order_details` on an unknown order id is a lookup
failure, while `get_user_orders` on a user with no recorded orders returns
the default empty list rather than failing. -/
theorem claim9_amended :
    (∀ (s : StopLoss.St) (id : Nat), alGet s.orders id = none →
      StopLoss.get_order_details s id = .error .unknownId) ∧
    (∀ (s : StopLoss.St) (u : Addr), alGet s.user_orders u = none →
      StopLoss.get_user_orders s u = []) := by
  constructor
  · intro s id h
    unfold StopLoss.get_order_details StopLoss.get_order
    rw [h]
  · intro s u h
    unfold StopLoss.get_user_orders
    rw [h]
    rfl

def c9s : StopLoss.St :=
  { oracle := { spotQ := [], twapQ := [], crossQ := [] }, now := 0,
    orders := [], order_counter := 0, user_orders := [] }

/-- C9 counterexample: a user with no recorded orders: `get_user_orders`
answers with the default empty list — it does not fail with an unknown-id
error as the claim states. -/
theorem claim9_counterexample :
    alGet c9s.user_orders "bob" = none ∧
    StopLoss.get_user_orders c9s "bob" = ([] : List Nat) := ⟨rfl, rfl⟩

/-- Witness for C9 (amended) at a concrete empty state. -/
theorem claim9_witness :
    StopLoss.get_order_details c9s 42 = .error .unknownId ∧
    StopLoss.get_user_orders c9s "carol" = [] :=
  ⟨claim9_amended.1 c9s 42 rfl, claim9_amended.2 c9s "carol" rfl⟩

/-- C10: for an Active loan, `add_collateral` called by the owner with any
`additional_amount` — zero and negative included, nothing validates the
sign — adds exactly that amount to `collateral_amount` and changes nothing
else: every other loan field (shown by the full record equation), every
other loan record, and every other state component are unchanged. -/
theorem claim10_add_collateral (s : Liquidation.St) (owner : Addr)
    (id : Nat) (amt : Int) (loan : Liquidation.Loan)
    (hl : alGet s.loans id = some loan) (hw : loan.owner = owner)
    (ha : loan.status = Liquidation.LoanStatus.Active) :
    ∃ s', Liquidation.add_collateral s owner id amt = .ok ((), s') ∧
      alGet s'.loans id = some
        { loan with collateral_amount := loan.collateral_amount + amt } ∧
      (∀ i, i ≠ id → alGet s'.loans i = alGet s.loans i) ∧
      s'.oracle = s.oracle ∧ s'.now = s.now ∧
      s'.loan_counter = s.loan_counter ∧ s'.user_loans = s.user_loans ∧
      s'.rewards = s.rewards := by
  refine ⟨_, Liquidation.add_collateral_eq s owner id amt loan hl hw ha,
    ?_, ?_, rfl, rfl, rfl, rfl, rfl⟩
  · simp [Liquidation.save_loan, alGet_alSet_self]
  · intro i hi
    simp [Liquidation.save_loan, alGet_alSet_ne _ _ _ _ hi]

def c10loan : Liquidation.Loan :=
  { owner := "alice", collateral_asset := .Crypto "COL",
    collateral_amount := 1000, borrowed_asset := .Crypto "BOR",
    borrowed_amount := 500, liquidation_threshold := 15000,
    created_at := 0, status := .Active }

def c10s : Liquidation.St :=
  { oracle := { spotQ := [], twapQ := [] }, now := 0,
    loans := [(1, c10loan), (2, { c10loan with owner := "bob" })],
    loan_counter := 2, user_loans := [("alice", [1]), ("bob", [2])],
    rewards := [] }

/-- Witness for C10 with a negative amount, accepted without validation. -/
theorem claim10_witness :
    ∃ s', Liquidation.add_collateral c10s "alice" 1 (-5) = .ok ((), s') ∧
      alGet s'.loans 1 = some
        { c10loan with collateral_amount := c10loan.collateral_amount + (-5) } ∧
      (∀ i, i ≠ 1 → alGet s'.loans i = alGet c10s.loans i) ∧
      s'.oracle = c10s.oracle ∧ s'.now = c10s.now ∧
      s'.loan_counter = c10s.loan_counter ∧
      s'.user_loans = c10s.user_loans ∧ s'.rewards = c10s.rewards :=
  claim10_add_collateral c10s "alice" 1 (-5) c10loan rfl rfl rfl


/-- C6 (amended): none of the dividing operations explicitly guards its
denominator; with a zero borrowed value the call does abort, but through
the unguarded division's own divide-by-zero trap (`rdivE`'s zero branch),
not through any pre-division arithmetic-error check. -/
theorem claim6_amended :
    (∀ (s : Liquidation.St) (id : Nat) (loan : Liquidation.Loan)
       (cp bp : PriceData),
      alGet s.loans id = some loan →
      loan.status = Liquidation.LoanStatus.Active →
      s.oracle.lastprice loan.collateral_asset = some cp →
      s.oracle.lastprice loan.borrowed_asset = some bp →
      bp.price * loan.borrowed_amount = 0 →
      Liquidation.check_liquidation s id = .error .divideByZero) ∧
    (∀ (s : Liquidation.St) (owner : Addr) (ca : Liquidation.AssetType)
       (camt : Int) (ba : Liquidation.AssetType) (bamt th : Int)
       (cp bp : PriceData),
      ¬ th ≤ 10000 →
      s.oracle.lastprice ca = some cp →
      s.oracle.lastprice ba = some bp →
      bp.price * bamt = 0 →
      Liquidation.create_loan s owner ca camt ba bamt th =
        .error .divideByZero) ∧
    (∀ (s : Liquidation.St) (id : Nat) (loan : Liquidation.Loan)
       (ct bt : Int) (periods : Nat),
      alGet s.loans id = some loan →
      loan.status = Liquidation.LoanStatus.Active →
      s.oracle.twap loan.collateral_asset periods = some ct →
      s.oracle.twap loan.borrowed_asset periods = some bt →
      rdiv (bt * loan.borrowed_amount * loan.liquidation_threshold) 10000 = 0 →
      Liquidation.get_health_factor_twap s id periods =
        .error .divideByZero) := by
  refine ⟨?_, ?_, ?_⟩
  · intro s id loan cp bp hl ha hc hb hz
    rw [Liquidation.check_liquidation_active_eq s id loan cp bp hl ha hc hb]
    unfold rdivE
    rw [if_pos hz]
  · intro s owner ca camt ba bamt th cp bp hth hc hb hz
    have hr : Liquidation.calculate_collateral_ratio s ca camt ba bamt =
        .error .divideByZero := by
      unfold Liquidation.calculate_collateral_ratio
      rw [hc, hb]
      dsimp only
      unfold rdivE
      rw [if_pos hz]
    unfold Liquidation.create_loan
    rw [if_neg hth, hr]
  · intro s id loan ct bt periods hl ha hct hbt hz
    unfold Liquidation.get_health_factor_twap
    rw [hl]
    dsimp only
    rw [if_neg (not_not_intro ha), hct, hbt]
    dsimp only
    unfold rdivE
    rw [if_pos hz]

def c6loan : Liquidation.Loan :=
  { owner := "alice", collateral_asset := .Crypto "COL",
    collateral_amount := 1000, borrowed_asset := .Crypto "BOR",
    borrowed_amount := 500, liquidation_threshold := 15000,
    created_at := 0, status := .Active }

def c6s : Liquidation.St :=
  { oracle := { spotQ := [(.Crypto "COL", ⟨10, 0⟩), (.Crypto "BOR", ⟨0, 0⟩)],
                twapQ := [((.Crypto "COL", 5), 10), ((.Crypto "BOR", 5), 0)] },
    now := 0, loans := [(1, c6loan)], loan_counter := 1,
    user_loans := [("alice", [1])], rewards := [] }

/-- C6 counterexample: with the borrowed leg priced at zero the concrete
call fails by the division's own trap — the error produced by `rdivE`'s
zero branch, which models the unguarded Rust division — and no code path
performs the explicit pre-division rejection the claim describes. -/
theorem claim6_counterexample :
    Liquidation.check_liquidation c6s 1 = .error .divideByZero := rfl

/-- Witness for C6 (amended) at concrete zero-denominator inputs for all
three operations. -/
theorem claim6_witness :
    Liquidation.check_liquidation c6s 1 = .error .divideByZero ∧
    Liquidation.create_loan c6s "alice" (.Crypto "COL") 1000 (.Crypto "BOR")
      0 15000 = .error .divideByZero ∧
    Liquidation.get_health_factor_twap c6s 1 5 = .error .divideByZero :=
  ⟨claim6_amended.1 c6s 1 c6loan ⟨10, 0⟩ ⟨0, 0⟩ rfl rfl rfl rfl (by decide),
   claim6_amended.2.1 c6s "alice" (.Crypto "COL") 1000 (.Crypto "BOR") 0
     15000 ⟨10, 0⟩ ⟨0, 0⟩ (by decide) rfl rfl (by decide),
   claim6_amended.2.2 c6s 1 c6loan 10 0 5 rfl rfl rfl rfl (by decide)⟩

/-- C7 (amended): the spot path (`get_current_price`, used by
`check_and_execute`) rejects a quote more than 600 time-units old with the
staleness panic — an error result is a full revert, so no state changes —
while the TWAP path (`get_twap_price`, used by `check_and_execute_twap`)
has no staleness check at all: whenever the oracle returns a TWAP value the
lookup succeeds. -/
theorem claim7_amended :
    (∀ (s : StopLoss.St) (asset : Sym) (pd : PriceData),
      s.oracle.lastprice asset = some pd → pd.timestamp + 600 < s.now →
      StopLoss.get_current_price s asset = .error .priceStale) ∧
    (∀ (s : StopLoss.St) (id : Nat) (o : StopLoss.StopLossOrder)
       (pd : PriceData),
      alGet s.orders id = some o → o.status = StopLoss.OrderStatus.Active →
      s.oracle.lastprice o.asset = some pd → pd.timestamp + 600 < s.now →
      StopLoss.check_and_execute s id = .error .priceStale) ∧
    (∀ (s : StopLoss.St) (asset : Sym) (periods : Nat) (v : Int),
      s.oracle.twap asset periods = some v →
      StopLoss.get_twap_price s asset periods = .ok v) := by
  have hspot : ∀ (s : StopLoss.St) (asset : Sym) (pd : PriceData),
      s.oracle.lastprice asset = some pd → pd.timestamp + 600 < s.now →
      StopLoss.get_current_price s asset = .error .priceStale := by
    intro s asset pd hpd hstale
    unfold StopLoss.get_current_price
    rw [hpd]
    dsimp only
    rw [if_pos (by omega)]
  refine ⟨hspot, ?_, ?_⟩
  · intro s id o pd ho ha hpd hstale
    unfold StopLoss.check_and_execute StopLoss.check_core
    rw [ho]
    dsimp only
    rw [if_neg (not_not_intro ha), hspot s o.asset pd hpd hstale]
  · intro s asset periods v hv
    unfold StopLoss.get_twap_price
    rw [hv]

def c7order : StopLoss.StopLossOrder :=
  { owner := "alice", asset := "XLM", amount := 2000000, stop_price := 90,
    trailing_percent := none, highest_price := 100,
    take_profit_price := some 150, created_at := 0, status := .Active }

def c7s : StopLoss.St :=
  { oracle := { spotQ := [("XLM", ⟨95, 0⟩)], twapQ := [(("XLM", 5), 50)],
                crossQ := [] },
    now := 1000, orders := [(1, c7order)], order_counter := 1,
    user_orders := [("alice", [1])] }

def c7sX : StopLoss.St :=
  { c7s with orders := [(1, { c7order with status := .Executed })] }

/-- C7 counterexample: the only quote for the order's asset is 1000 - 0 >
600 time-units old; the spot-priced call indeed fails stale, but
`check_and_execute_twap` on the very same state succeeds — it even
executes the order — because the TWAP path never consults a timestamp. -/
theorem claim7_counterexample :
    c7s.oracle.lastprice "XLM" = some ⟨95, 0⟩ ∧ c7s.now = 1000 ∧
    StopLoss.check_and_execute c7s 1 = .error .priceStale ∧
    StopLoss.check_and_execute_twap c7s 1 5 = .ok (true, c7sX) :=
  ⟨rfl, rfl, rfl, rfl⟩

/-- Witness for C7 (amended) at the concrete stale state. -/
theorem claim7_witness :
    StopLoss.get_current_price c7s "XLM" = .error .priceStale ∧
    StopLoss.check_and_execute c7s 1 = .error .priceStale ∧
    StopLoss.get_twap_price c7s "XLM" 5 = .ok 50 :=
  ⟨claim7_amended.1 c7s "XLM" ⟨95, 0⟩ rfl (by decide),
   claim7_amended.2.1 c7s 1 c7order ⟨95, 0⟩ rfl rfl rfl (by decide),
   claim7_amended.2.2 c7s "XLM" 5 50 rfl⟩


def c1s0 : StopLoss.St :=
  { oracle := { spotQ := [("BTC", ⟨60000, 1000⟩), ("ETH", ⟨1500, 1000⟩)],
                twapQ := [], crossQ := [(("ETH", "BTC"), ⟨40, 1000⟩)] },
    now := 1000, orders := [], order_counter := 0, user_orders := [] }

def c1order : StopLoss.StopLossOrder :=
  { owner := "alice", asset := "BTC", amount := 2000000, stop_price := 2000,
    trailing_percent := none, highest_price := 40, take_profit_price := none,
    created_at := 1000, status := .Active }

def c1s1 : StopLoss.St :=
  { c1s0 with
    orders := [(1, c1order)]
    order_counter := 1
    user_orders := [("alice", [1])] }

def c1s2 : StopLoss.St :=
  { c1s1 with oracle := { c1s1.oracle with
      spotQ := [("BTC", ⟨1500, 1000⟩), ("ETH", ⟨99999, 1000⟩)] } }

def c1s2X : StopLoss.St :=
  { c1s2 with orders := [(1, { c1order with status := .Executed })] }

/-- C1: evaluation of the code at the failing input.  A cross-asset stop is
created with position asset BTC, trigger asset ETH and trigger price 2000.
First conjunct block: the trigger asset ETH has crashed to 1500 ≤ 2000, yet
`check_and_execute` returns false and leaves the order Active, because it
fetched the spot price of `order.asset` — the position asset BTC at 60000 —
and the trigger asset is not even stored in the order.  Second block:
conversely, once BTC itself drops to 1500 ≤ 2000 the order executes even
though ETH stands at 99999, far above the trigger price.  This contradicts
the source's own comment that `stop_price` "represents the trigger asset
price" and the function's stated purpose ("stop BTC position if ETH
crashes"). -/
theorem claim1_cross_asset_eval :
    StopLoss.create_cross_asset_stop c1s0 "alice" "BTC" "ETH" 2000000 2000 =
      .ok (1, c1s1) ∧
    (c1s1.oracle.lastprice "ETH" = some ⟨1500, 1000⟩ ∧ (1500 : Int) ≤ 2000 ∧
      StopLoss.check_and_execute c1s1 1 = .ok (false, c1s1)) ∧
    (c1s2.oracle.lastprice "ETH" = some ⟨99999, 1000⟩ ∧
      ¬ (99999 : Int) ≤ 2000 ∧
      StopLoss.check_and_execute c1s2 1 = .ok (true, c1s2X)) :=
  ⟨rfl, ⟨rfl, by decide, rfl⟩, ⟨rfl, by decide, rfl⟩⟩

def c2order : StopLoss.StopLossOrder :=
  { owner := "alice", asset := "XLM", amount := 2000000, stop_price := 100,
    trailing_percent := none, highest_price := 100,
    take_profit_price := none, created_at := 0, status := .Active }

def c2s0 : StopLoss.St :=
  { oracle := { spotQ := [("XLM", ⟨50, 0⟩)], twapQ := [], crossQ := [] },
    now := 0, orders := [(1, c2order)], order_counter := 1,
    user_orders := [("alice", [1])] }

def c2s1 : StopLoss.St :=
  { c2s0 with orders := [(1, { c2order with status := .Executed })] }

/-- C2 counterexample: the first `check_and_execute` call executes the
order; the second call on the resulting state does not fail with any error
— it succeeds, returning false with no state change — contradicting the
claim that the duplicate call fails with a StateError. -/
theorem claim2_counterexample :
    StopLoss.check_and_execute c2s0 1 = .ok (true, c2s1) ∧
    StopLoss.check_and_execute c2s1 1 = .ok (false, c2s1) := ⟨rfl, rfl⟩

/-- C2 (amended): success at most once.  After `check_and_execute` has
executed an order, a repeat call on the same id returns false with no state
change (a clean success carrying no effect, not a StateError); after
`liquidate_position` has liquidated a loan, a repeat call by any caller
fails with the not-eligible panic — errors being full reverts, no second
reward is credited and no effect is applied. -/
theorem claim2_amended :
    (∀ (s : StopLoss.St) (id : Nat) (sX : StopLoss.St),
      StopLoss.check_and_execute s id = .ok (true, sX) →
      StopLoss.check_and_execute sX id = .ok (false, sX)) ∧
    (∀ (s : Liquidation.St) (a : Addr) (id : Nat) (r : Int)
       (sX : Liquidation.St) (b : Addr),
      Liquidation.liquidate_position s a id = .ok (r, sX) →
      Liquidation.liquidate_position sX b id = .error .notEligible) := by
  constructor
  · intro s id sX h
    obtain ⟨oX, hoX, hst⟩ :=
      StopLoss.check_core_executed_of_true s (StopLoss.get_current_price s)
        id sX h
    exact StopLoss.check_core_inactive sX (StopLoss.get_current_price sX) id
      oX hoX (by rw [hst]; simp)
  · intro s a id r sX b h
    obtain ⟨loan, hl, ha, hr, hs⟩ :=
      Liquidation.liquidate_position_shape s a id r sX h
    have hlX : alGet sX.loans id =
        some { loan with status := Liquidation.LoanStatus.Liquidated } := by
      rw [hs]
      simp [Liquidation.add_liquidation_reward, Liquidation.save_loan,
        alGet_alSet_self]
    exact Liquidation.liquidate_position_not_active sX b id _ hlX (by simp)

def c2loan : Liquidation.Loan :=
  { owner := "alice", collateral_asset := .Crypto "COL",
    collateral_amount := 1000, borrowed_asset := .Crypto "BOR",
    borrowed_amount := 500, liquidation_threshold := 15000,
    created_at := 0, status := .Active }

def c2ls0 : Liquidation.St :=
  { oracle := { spotQ := [(.Crypto "COL", ⟨7, 0⟩), (.Crypto "BOR", ⟨10, 0⟩)],
                twapQ := [] },
    now := 0, loans := [(1, c2loan)], loan_counter := 1,
    user_loans := [("alice", [1])], rewards := [] }

def c2ls1 : Liquidation.St :=
  { c2ls0 with
    loans := [(1, { c2loan with status := .Liquidated })]
    rewards := [("bob", 50)] }

/-- Witness for C2 (amended) after concrete first executions. -/
theorem claim2_witness :
    StopLoss.check_and_execute c2s1 1 = .ok (false, c2s1) ∧
    Liquidation.liquidate_position c2ls1 "carol" 1 = .error .notEligible :=
  ⟨claim2_amended.1 c2s0 1 c2s1 rfl,
   claim2_amended.2 c2ls0 "bob" 1 50 c2ls1 "carol" rfl⟩

/-- C8: for an Active order whose stop condition (price at or below the
post-ratchet stop) or configured take-profit condition (price at or above
the take-profit) holds — either alone, or both in the same evaluation —
`check_and_execute` executes exactly once: it returns true, the stored
order's status becomes Executed with the amount unchanged, `execute_order`
computes fee = amount * 10 / 10000 and net_amount = amount - fee, and a
repeat call performs no second execution. -/
theorem claim8_execute_once (s : StopLoss.St) (id : Nat)
    (o : StopLoss.StopLossOrder) (p : Int)
    (ho : alGet s.orders id = some o)
    (ha : o.status = StopLoss.OrderStatus.Active)
    (hp : StopLoss.get_current_price s o.asset = .ok p)
    (hcond : p ≤ (StopLoss.ratchet o p).1.stop_price ∨
      (∃ tp, o.take_profit_price = some tp ∧ p ≥ tp)) :
    ∃ sX, StopLoss.check_and_execute s id = .ok (true, sX) ∧
      (∃ oX, alGet sX.orders id = some oX ∧
        oX.status = StopLoss.OrderStatus.Executed ∧ oX.amount = o.amount) ∧
      StopLoss.execute_order
          (if (StopLoss.ratchet o p).2 then
            StopLoss.save_order s id (StopLoss.ratchet o p).1 else s) id p =
        .ok ((rdiv (o.amount * 10) 10000,
              o.amount - rdiv (o.amount * 10) 10000), sX) ∧
      StopLoss.check_and_execute sX id = .ok (false, sX) := by
  have hfields := StopLoss.ratchet_fields o p
  have ht : StopLoss.trigger_test (StopLoss.ratchet o p).1 p = true := by
    unfold StopLoss.trigger_test
    rcases hcond with hle | ⟨tp, htp0, hge⟩
    · simp [hle]
    · rw [hfields.2.2.2.1, htp0]
      simp [hge]
  have hspec := StopLoss.check_core_active s (StopLoss.get_current_price s)
    id o p ho ha hp
  rw [if_pos ht] at hspec
  have h1 : alGet (if (StopLoss.ratchet o p).2 then
      StopLoss.save_order s id (StopLoss.ratchet o p).1 else s).orders id =
      some (if (StopLoss.ratchet o p).2 then (StopLoss.ratchet o p).1 else o) := by
    by_cases hr : (StopLoss.ratchet o p).2 <;>
      simp [hr, StopLoss.save_order, alGet_alSet_self, ho]
  refine ⟨_, hspec, ?_, ?_, ?_⟩
  · refine ⟨{ (if (StopLoss.ratchet o p).2 then (StopLoss.ratchet o p).1
        else o) with status := StopLoss.OrderStatus.Executed }, ?_, rfl, ?_⟩
    · simp [StopLoss.save_order, alGet_alSet_self]
    · by_cases hr : (StopLoss.ratchet o p).2 <;> simp [hr, hfields.2.2.1]
  · rw [StopLoss.execute_order_eq _ id _ p h1]
    by_cases hr : (StopLoss.ratchet o p).2 <;>
      simp [hr, StopLoss.save_order_twice, hfields.2.2.1,
        StopLoss.PROTOCOL_FEE_BPS]
  · exact StopLoss.check_core_inactive _ _ id
      { (if (StopLoss.ratchet o p).2 then (StopLoss.ratchet o p).1 else o) with
          status := StopLoss.OrderStatus.Executed }
      (by simp [StopLoss.save_order, alGet_alSet_self]) (by simp)

def c8order : StopLoss.StopLossOrder :=
  { owner := "alice", asset := "XLM", amount := 2000000, stop_price := 100,
    trailing_percent := none, highest_price := 100,
    take_profit_price := some 50, created_at := 0, status := .Active }

def c8s : StopLoss.St :=
  { oracle := { spotQ := [("XLM", ⟨75, 0⟩)], twapQ := [], crossQ := [] },
    now := 0, orders := [(1, c8order)], order_counter := 1,
    user_orders := [("alice", [1])] }

/-- Witness for C8 at a state where both conditions hold at once
(price 75 ≤ stop 100 and 75 ≥ take-profit 50): still exactly one
execution. -/
theorem claim8_witness :
    ∃ sX, StopLoss.check_and_execute c8s 1 = .ok (true, sX) ∧
      (∃ oX, alGet sX.orders 1 = some oX ∧
        oX.status = StopLoss.OrderStatus.Executed ∧
        oX.amount = c8order.amount) ∧
      StopLoss.execute_order
          (if (StopLoss.ratchet c8order 75).2 then
            StopLoss.save_order c8s 1 (StopLoss.ratchet c8order 75).1
          else c8s) 1 75 =
        .ok ((rdiv (c8order.amount * 10) 10000,
              c8order.amount - rdiv (c8order.amount * 10) 10000), sX) ∧
      StopLoss.check_and_execute sX 1 = .ok (false, sX) :=
  claim8_execute_once c8s 1 c8order 75 rfl rfl rfl (Or.inl (by decide))


/-- C4: the trailing-stop invariant.  Monotonicity: no order operation
(`check_and_execute`, `check_and_execute_twap`, `cancel_order`) ever lowers
any stored order's `stop_price`.  Exactness: for an Active trailing order,
the evaluated call raises the stored stop exactly when the current price
exceeds `highest_price` and the candidate `highest_price * (100 -
trailing_percent) / 100` exceeds the stored stop, storing the candidate as
the new stop and the price as the new watermark; otherwise the stored stop
and watermark stay as they were. -/
theorem claim4_trailing_ratchet :
    (∀ (s : StopLoss.St) (id : Nat) (b : Bool) (sX : StopLoss.St),
      StopLoss.check_and_execute s id = .ok (b, sX) →
      ∀ i o oX, alGet s.orders i = some o → alGet sX.orders i = some oX →
        o.stop_price ≤ oX.stop_price) ∧
    (∀ (s : StopLoss.St) (id periods : Nat) (b : Bool) (sX : StopLoss.St),
      StopLoss.check_and_execute_twap s id periods = .ok (b, sX) →
      ∀ i o oX, alGet s.orders i = some o → alGet sX.orders i = some oX →
        o.stop_price ≤ oX.stop_price) ∧
    (∀ (s : StopLoss.St) (owner : Addr) (id : Nat) (r : Unit)
       (sX : StopLoss.St),
      StopLoss.cancel_order s owner id = .ok (r, sX) →
      ∀ i o oX, alGet s.orders i = some o → alGet sX.orders i = some oX →
        o.stop_price ≤ oX.stop_price) ∧
    (∀ (s : StopLoss.St) (id : Nat) (o : StopLoss.StopLossOrder) (tp : Nat)
       (p : Int) (b : Bool) (sX : StopLoss.St),
      alGet s.orders id = some o → o.status = StopLoss.OrderStatus.Active →
      o.trailing_percent = some tp →
      StopLoss.get_current_price s o.asset = .ok p →
      StopLoss.check_and_execute s id = .ok (b, sX) →
      ∃ oX, alGet sX.orders id = some oX ∧
        (if p > o.highest_price ∧
            rdiv (p * (100 - (tp : Int))) 100 > o.stop_price
         then oX.stop_price = rdiv (p * (100 - (tp : Int))) 100 ∧
              oX.highest_price = p
         else oX.stop_price = o.stop_price ∧
              oX.highest_price = o.highest_price)) ∧
    (∀ (s : StopLoss.St) (id periods : Nat) (o : StopLoss.StopLossOrder)
       (tp : Nat) (p : Int) (b : Bool) (sX : StopLoss.St),
      alGet s.orders id = some o → o.status = StopLoss.OrderStatus.Active →
      o.trailing_percent = some tp →
      StopLoss.get_twap_price s o.asset periods = .ok p →
      StopLoss.check_and_execute_twap s id periods = .ok (b, sX) →
      ∃ oX, alGet sX.orders id = some oX ∧
        (if p > o.highest_price ∧
            rdiv (p * (100 - (tp : Int))) 100 > o.stop_price
         then oX.stop_price = rdiv (p * (100 - (tp : Int))) 100 ∧
              oX.highest_price = p
         else oX.stop_price = o.stop_price ∧
              oX.highest_price = o.highest_price)) := by
  refine ⟨?_, ?_, ?_, ?_, ?_⟩
  · intro s id b sX h
    exact StopLoss.check_core_stop_mono s (StopLoss.get_current_price s) id
      b sX h
  · intro s id periods b sX h
    exact StopLoss.check_core_stop_mono s
      (fun a => StopLoss.get_twap_price s a periods) id b sX h
  · intro s owner id r sX h i o oX ho hoX
    obtain ⟨o0, ho0, hw, ha, hs⟩ :=
      StopLoss.cancel_order_shape s owner id r sX h
    subst hs
    simp only [StopLoss.save_order] at hoX
    by_cases hi : i = id
    · subst hi
      rw [ho] at ho0
      have he : o = o0 := Option.some.inj ho0
      subst he
      rw [alGet_alSet_self] at hoX
      rw [(Option.some.inj hoX).symm]
    · rw [alGet_alSet_ne _ _ _ _ hi, ho] at hoX
      rw [(Option.some.inj hoX).symm]
  · intro s id o tp p b sX ho ha htp hp h
    exact StopLoss.check_core_trailing_exact s (StopLoss.get_current_price s)
      id o tp p b sX ho ha htp hp h
  · intro s id periods o tp p b sX ho ha htp hp h
    exact StopLoss.check_core_trailing_exact s
      (fun a => StopLoss.get_twap_price s a periods) id o tp p b sX ho ha
      htp hp h

def c4order : StopLoss.StopLossOrder :=
  { owner := "alice", asset := "XLM", amount := 1000000000,
    stop_price := 90, trailing_percent := some 10, highest_price := 100,
    take_profit_price := none, created_at := 0, status := .Active }

def c4s0 : StopLoss.St :=
  { oracle := { spotQ := [("XLM", ⟨120, 0⟩)], twapQ := [], crossQ := [] },
    now := 0, orders := [(1, c4order)], order_counter := 1,
    user_orders := [("alice", [1])] }

def c4s1 : StopLoss.St :=
  { c4s0 with
    orders := [(1, { c4order with stop_price := 108, highest_price := 120 })] }

/-- Witness for C4 at the spec's Scenario B: price 120 over watermark 100
with trailing 10 percent raises the stored stop from 90 to 108. -/
theorem claim4_witness :
    ∃ oX, alGet c4s1.orders 1 = some oX ∧
      (if (120 : Int) > c4order.highest_price ∧
          rdiv ((120 : Int) * (100 - ((10 : Nat) : Int))) 100 >
            c4order.stop_price
       then oX.stop_price = rdiv ((120 : Int) * (100 - ((10 : Nat) : Int))) 100 ∧
            oX.highest_price = 120
       else oX.stop_price = c4order.stop_price ∧
            oX.highest_price = c4order.highest_price) :=
  claim4_trailing_ratchet.2.2.2.1 c4s0 1 c4order 10 120 false c4s1 rfl rfl
    rfl rfl rfl

/-- One-way loan status transition exactly as the claim words it. -/
def loanStep (a b : Liquidation.LoanStatus) : Prop :=
  b = a ∨ (a = Liquidation.LoanStatus.Active ∧
    (b = Liquidation.LoanStatus.Liquidated ∨
     b = Liquidation.LoanStatus.Closed))

/-- One-way order status transition exactly as the claim words it. -/
def orderStep (a b : StopLoss.OrderStatus) : Prop :=
  b = a ∨ (a = StopLoss.OrderStatus.Active ∧
    (b = StopLoss.OrderStatus.Executed ∨
     b = StopLoss.OrderStatus.Cancelled))

/-- C5: one-way status transitions.  Every record-mutating operation
(`add_collateral`, `repay_loan`, `liquidate_position`, `cancel_order`,
`check_and_execute`, `check_and_execute_twap`), whenever it succeeds,
leaves every stored record with a status reachable by at most one
Active-to-terminal step, and a record that was already terminal is
returned entirely unchanged. -/
theorem claim5_one_way :
    (∀ (s : Liquidation.St) (owner : Addr) (id : Nat) (amt : Int) (r : Unit)
       (sX : Liquidation.St),
      Liquidation.add_collateral s owner id amt = .ok (r, sX) →
      ∀ i old, alGet s.loans i = some old →
        ∃ new, alGet sX.loans i = some new ∧ loanStep old.status new.status ∧
          (old.status ≠ Liquidation.LoanStatus.Active → new = old)) ∧
    (∀ (s : Liquidation.St) (owner : Addr) (id : Nat) (amt : Int) (r : Unit)
       (sX : Liquidation.St),
      Liquidation.repay_loan s owner id amt = .ok (r, sX) →
      ∀ i old, alGet s.loans i = some old →
        ∃ new, alGet sX.loans i = some new ∧ loanStep old.status new.status ∧
          (old.status ≠ Liquidation.LoanStatus.Active → new = old)) ∧
    (∀ (s : Liquidation.St) (a : Addr) (id : Nat) (r : Int)
       (sX : Liquidation.St),
      Liquidation.liquidate_position s a id = .ok (r, sX) →
      ∀ i old, alGet s.loans i = some old →
        ∃ new, alGet sX.loans i = some new ∧ loanStep old.status new.status ∧
          (old.status ≠ Liquidation.LoanStatus.Active → new = old)) ∧
    (∀ (s : StopLoss.St) (owner : Addr) (id : Nat) (r : Unit)
       (sX : StopLoss.St),
      StopLoss.cancel_order s owner id = .ok (r, sX) →
      ∀ i old, alGet s.orders i = some old →
        ∃ new, alGet sX.orders i = some new ∧
          orderStep old.status new.status ∧
          (old.status ≠ StopLoss.OrderStatus.Active → new = old)) ∧
    (∀ (s : StopLoss.St) (id : Nat) (b : Bool) (sX : StopLoss.St),
      StopLoss.check_and_execute s id = .ok (b, sX) →
      ∀ i old, alGet s.orders i = some old →
        ∃ new, alGet sX.orders i = some new ∧
          orderStep old.status new.status ∧
          (old.status ≠ StopLoss.OrderStatus.Active → new = old)) ∧
    (∀ (s : StopLoss.St) (id periods : Nat) (b : Bool) (sX : StopLoss.St),
      StopLoss.check_and_execute_twap s id periods = .ok (b, sX) →
      ∀ i old, alGet s.orders i = some old →
        ∃ new, alGet sX.orders i = some new ∧
          orderStep old.status new.status ∧
          (old.status ≠ StopLoss.OrderStatus.Active → new = old)) := by
  have hcore : ∀ (s : StopLoss.St) (price : Sym → Except Err Int) (id : Nat)
      (b : Bool) (sX : StopLoss.St),
      StopLoss.check_core s price id = .ok (b, sX) →
      ∀ i old, alGet s.orders i = some old →
        ∃ new, alGet sX.orders i = some new ∧
          orderStep old.status new.status ∧
          (old.status ≠ StopLoss.OrderStatus.Active → new = old) := by
    intro s price id b sX h i old hold
    obtain ⟨_, _, _, _, hoth, hrec⟩ :=
      StopLoss.check_core_frame s price id b sX h
    by_cases hi : i = id
    · subst hi
      obtain ⟨new, hnew, _, _, _, _, _, _, _, _, hstep, hterm⟩ := hrec old hold
      refine ⟨new, hnew, ?_, hterm⟩
      rcases hstep with heq | ⟨hact, hexec⟩
      · exact Or.inl heq
      · exact Or.inr ⟨hact, Or.inl hexec⟩
    · rw [hoth i hi]
      exact ⟨old, hold, Or.inl rfl, fun _ => rfl⟩
  refine ⟨?_, ?_, ?_, ?_, ?_, ?_⟩
  · intro s owner id amt r sX h i old hold
    obtain ⟨loan, hl, hw, ha, hs⟩ :=
      Liquidation.add_collateral_shape s owner id amt r sX h
    subst hs
    simp only [Liquidation.save_loan] at *
    by_cases hi : i = id
    · subst hi
      rw [hl] at hold
      have he : old = loan := (Option.some.inj hold).symm
      subst he
      refine ⟨_, alGet_alSet_self _ _ _, Or.inl rfl,
        fun hna => absurd ha hna⟩
    · rw [alGet_alSet_ne _ _ _ _ hi]
      exact ⟨old, hold, Or.inl rfl, fun _ => rfl⟩
  · intro s owner id amt r sX h i old hold
    obtain ⟨loan, hl, hw, ha, hs⟩ :=
      Liquidation.repay_loan_shape s owner id amt r sX h
    subst hs
    simp only [Liquidation.save_loan] at *
    by_cases hi : i = id
    · subst hi
      rw [hl] at hold
      have he : old = loan := (Option.some.inj hold).symm
      subst he
      refine ⟨_, alGet_alSet_self _ _ _, ?_, fun hna => absurd ha hna⟩
      by_cases hz : old.borrowed_amount - amt ≤ 0
      · rw [if_pos hz]
        exact Or.inr ⟨ha, Or.inr rfl⟩
      · rw [if_neg hz]
        exact Or.inl rfl
    · rw [alGet_alSet_ne _ _ _ _ hi]
      exact ⟨old, hold, Or.inl rfl, fun _ => rfl⟩
  · intro s a id r sX h i old hold
    obtain ⟨loan, hl, ha, hr, hs⟩ :=
      Liquidation.liquidate_position_shape s a id r sX h
    subst hs
    simp only [Liquidation.add_liquidation_reward, Liquidation.save_loan] at *
    by_cases hi : i = id
    · subst hi
      rw [hl] at hold
      have he : old = loan := (Option.some.inj hold).symm
      subst he
      exact ⟨_, alGet_alSet_self _ _ _, Or.inr ⟨ha, Or.inl rfl⟩,
        fun hna => absurd ha hna⟩
    · rw [alGet_alSet_ne _ _ _ _ hi]
      exact ⟨old, hold, Or.inl rfl, fun _ => rfl⟩
  · intro s owner id r sX h i old hold
    obtain ⟨o0, ho0, hw, ha, hs⟩ :=
      StopLoss.cancel_order_shape s owner id r sX h
    subst hs
    simp only [StopLoss.save_order] at *
    by_cases hi : i = id
    · subst hi
      rw [ho0] at hold
      have he : old = o0 := (Option.some.inj hold).symm
      subst he
      exact ⟨_, alGet_alSet_self _ _ _, Or.inr ⟨ha, Or.inr rfl⟩,
        fun hna => absurd ha hna⟩
    · rw [alGet_alSet_ne _ _ _ _ hi]
      exact ⟨old, hold, Or.inl rfl, fun _ => rfl⟩
  · intro s id b sX h
    exact hcore s (StopLoss.get_current_price s) id b sX h
  · intro s id periods b sX h
    exact hcore s (fun a => StopLoss.get_twap_price s a periods) id b sX h

def c5order : StopLoss.StopLossOrder :=
  { owner := "alice", asset := "XLM", amount := 2000000, stop_price := 90,
    trailing_percent := none, highest_price := 100,
    take_profit_price := none, created_at := 0, status := .Active }

def c5s : StopLoss.St :=
  { oracle := { spotQ := [("XLM", ⟨100, 0⟩)], twapQ := [], crossQ := [] },
    now := 0, orders := [(1, c5order)], order_counter := 1,
    user_orders := [("alice", [1])] }

def c5s1 : StopLoss.St :=
  { c5s with orders := [(1, { c5order with status := .Cancelled })] }

/-- Witness for C5: a concrete successful `cancel_order` performs the
one-way Active-to-Cancelled step. -/
theorem claim5_witness :
    ∃ new, alGet c5s1.orders 1 = some new ∧
      orderStep c5order.status new.status ∧
      (c5order.status ≠ StopLoss.OrderStatus.Active → new = c5order) :=
  claim5_one_way.2.2.2.1 c5s "alice" 1 () c5s1 rfl 1 c5order rfl

end StellarGuard
